import Mathlib

/-!
Shallow embedding of the core components of the Synoep/HFT-Project trading
client (risk manager, market-data manager, latency module, Deribit client),
with theorems checking the natural-language specification against the code.

C++ `double` values are modelled as `ℚ`; timestamps as `ℕ`; `std::vector`
and per-instrument `std::map` state as Lean lists and functions.
-/

namespace HFT

/-- `ConfigManager::TradingConfig` (config_manager.h): the configured trading
limits consulted by the risk checks. -/
structure TradingConfig where
  max_position_size : ℚ
  max_order_size : ℚ
  max_loss_per_trade : ℚ
  max_daily_loss : ℚ
  max_open_orders : ℤ
  slippage_tolerance : ℚ
  price_tolerance : ℚ
  max_retries : ℤ
  retry_delay_ms : ℤ
deriving Repr, DecidableEq

/-- `RiskManager::Position` (risk_manager.h). -/
structure Position where
  instrument : String
  size : ℚ
  avg_price : ℚ
  unrealized_pnl : ℚ
  realized_pnl : ℚ
  timestamp : ℕ
deriving Repr, DecidableEq

/-- `RiskManager::RiskMetrics` (risk_manager.h). -/
structure RiskMetrics where
  total_exposure : ℚ
  daily_pnl : ℚ
  max_drawdown : ℚ
  sharpe_ratio : ℚ
  win_rate : ℚ
  total_trades : ℤ
  winning_trades : ℤ
  timestamp : ℕ
deriving Repr, DecidableEq

/-- `RiskManager::checkPositionLimit`: fails when `|size|` exceeds the
maximum position size or the maximum order size. -/
def checkPositionLimit (cfg : TradingConfig) (instrument : String) (size : ℚ) : Bool :=
  if |size| > cfg.max_position_size then false
  else if |size| > cfg.max_order_size then false
  else true

/-- `RiskManager::checkLossLimit`: the potential loss must not exceed the
per-trade loss limit. -/
def checkLossLimit (cfg : TradingConfig) (potential_loss : ℚ) : Bool :=
  potential_loss ≤ cfg.max_loss_per_trade

/-- `RiskManager::checkDailyLossLimit`: the daily PnL after the potential
loss must stay at or above `-max_daily_loss`. -/
def checkDailyLossLimit (cfg : TradingConfig) (metrics : RiskMetrics)
    (potential_loss : ℚ) : Bool :=
  metrics.daily_pnl - potential_loss ≥ -cfg.max_daily_loss

/-- `RiskManager::checkExposureLimit`: the code compares the candidate
exposure against `max_position_size` (there is no separate exposure field
in `TradingConfig`). -/
def checkExposureLimit (cfg : TradingConfig) (exposure : ℚ) : Bool :=
  exposure ≤ cfg.max_position_size

/-- The potential-loss estimate computed inline in
`RiskManager::checkOrderRisk`: `size * price` for "buy" and "sell",
`0` for any other side string. -/
def potentialLoss (size price : ℚ) (side : String) : ℚ :=
  if side = "buy" then size * price
  else if side = "sell" then size * price
  else 0

/-- Outcome of a risk check: the boolean decision together with the
violation-callback invocation (instrument, reason) if any. -/
structure RiskCheckResult where
  approved : Bool
  violation : Option (String × String)
deriving Repr, DecidableEq

/-- `RiskManager::checkOrderRisk` (src/unnamed/part_007 lines 43–79):
runs the four sub-checks in order, returning at the first failure with the
corresponding violation callback, and true with no callback otherwise. -/
def checkOrderRisk (cfg : TradingConfig) (metrics : RiskMetrics)
    (instrument : String) (size price : ℚ) (side : String) : RiskCheckResult :=
  if checkPositionLimit cfg instrument size = false then
    ⟨false, some (instrument, "Position limit exceeded")⟩
  else
    let potential_loss := potentialLoss size price side
    if checkLossLimit cfg potential_loss = false then
      ⟨false, some (instrument, "Loss limit exceeded")⟩
    else if checkDailyLossLimit cfg metrics potential_loss = false then
      ⟨false, some (instrument, "Daily loss limit exceeded")⟩
    else
      let new_exposure := metrics.total_exposure + potential_loss
      if checkExposureLimit cfg new_exposure = false then
        ⟨false, some (instrument, "Exposure limit exceeded")⟩
      else
        ⟨true, none⟩

/-- The four sub-checks of `checkOrderRisk`, paired with their violation
reasons, in the order the code evaluates them. -/
def subChecks (cfg : TradingConfig) (metrics : RiskMetrics)
    (instrument : String) (size price : ℚ) (side : String) : List (Bool × String) :=
  let potential_loss := potentialLoss size price side
  [(checkPositionLimit cfg instrument size, "Position limit exceeded"),
   (checkLossLimit cfg potential_loss, "Loss limit exceeded"),
   (checkDailyLossLimit cfg metrics potential_loss, "Daily loss limit exceeded"),
   (checkExposureLimit cfg (metrics.total_exposure + potential_loss),
      "Exposure limit exceeded")]

/-- The reason of the first failing check in a list of (check, reason)
pairs, if any — the spec's short-circuit description. -/
def firstFailure (l : List (Bool × String)) : Option String :=
  (l.find? (fun p => p.1 = false)).map (fun p => p.2)

/-- A sample trading configuration with generous limits. -/
def cfgOk : TradingConfig := ⟨10, 10, 100, 100, 5, 0, 0, 3, 1000⟩

/-- A flat risk-metrics state: no exposure, no daily PnL. -/
def metricsFlat : RiskMetrics := ⟨0, 0, 0, 0, 0, 0, 0, 0⟩

/-- A configuration whose only binding limit is `max_position_size = 2`;
every other limit is far larger. -/
def cfgTightPos : TradingConfig := ⟨2, 10, 100, 100, 5, 0, 0, 3, 1000⟩

/-- A configuration with non-negative limits and a small daily-loss cap. -/
def cfgSmallDaily : TradingConfig := ⟨10, 10, 5, 5, 5, 0, 0, 3, 1000⟩

/-- A metrics state already past the daily-loss cap of `cfgSmallDaily`. -/
def metricsDeepLoss : RiskMetrics := ⟨0, -10, 0, 0, 0, 0, 0, 0⟩

/-- C1: `checkOrderRisk` evaluates the four sub-checks short-circuiting
in order — the result is determined by the first failing check, whose
reason is reported through the violation callback, and when the inputs are
strictly under every limit it approves with no callback. -/
theorem checkOrderRisk_first_failing (cfg : TradingConfig) (metrics : RiskMetrics)
    (instrument : String) (size price : ℚ) (side : String) :
    (checkOrderRisk cfg metrics instrument size price side =
      match firstFailure (subChecks cfg metrics instrument size price side) with
      | none => ⟨true, none⟩
      | some r => ⟨false, some (instrument, r)⟩) ∧
    (|size| < cfg.max_order_size → |size| < cfg.max_position_size →
      potentialLoss size price side < cfg.max_loss_per_trade →
      metrics.daily_pnl - potentialLoss size price side > -cfg.max_daily_loss →
      metrics.total_exposure + potentialLoss size price side < cfg.max_position_size →
      checkOrderRisk cfg metrics instrument size price side = ⟨true, none⟩) := by
  have main : checkOrderRisk cfg metrics instrument size price side =
      match firstFailure (subChecks cfg metrics instrument size price side) with
      | none => ⟨true, none⟩
      | some r => ⟨false, some (instrument, r)⟩ := by
    simp only [checkOrderRisk, subChecks, firstFailure]
    cases h1 : checkPositionLimit cfg instrument size <;>
      cases h2 : checkLossLimit cfg (potentialLoss size price side) <;>
        cases h3 : checkDailyLossLimit cfg metrics (potentialLoss size price side) <;>
          cases h4 : checkExposureLimit cfg
              (metrics.total_exposure + potentialLoss size price side) <;>
            simp [h1, h2, h3, h4, List.find?]
  refine ⟨main, fun horder hpos hloss hdaily hexp => ?_⟩
  have c1 : checkPositionLimit cfg instrument size = true := by
    unfold checkPositionLimit
    rw [if_neg (not_lt.mpr hpos.le), if_neg (not_lt.mpr horder.le)]
  have c2 : checkLossLimit cfg (potentialLoss size price side) = true := by
    simp [checkLossLimit, hloss.le]
  have c3 : checkDailyLossLimit cfg metrics (potentialLoss size price side) = true := by
    simp [checkDailyLossLimit]
    linarith
  have c4 : checkExposureLimit cfg
      (metrics.total_exposure + potentialLoss size price side) = true := by
    simp [checkExposureLimit, hexp.le]
  simp [checkOrderRisk, c1, c2, c3, c4]

/-- Witness for C1: a concrete order strictly under every limit of
`cfgOk` is approved with no violation callback. -/
theorem checkOrderRisk_first_failing_witness :
    checkOrderRisk cfgOk metricsFlat "BTC-PERPETUAL" 1 2 "buy" = ⟨true, none⟩ :=
  (checkOrderRisk_first_failing cfgOk metricsFlat "BTC-PERPETUAL" 1 2 "buy").2
    (by norm_num [cfgOk]) (by norm_num [cfgOk])
    (by norm_num [potentialLoss, cfgOk])
    (by norm_num [potentialLoss, cfgOk, metricsFlat])
    (by norm_num [potentialLoss, cfgOk, metricsFlat])

/-- C2 (amended): given the first three checks pass and side is "buy" or
"sell", `checkOrderRisk` rejects with reason "Exposure limit exceeded"
iff `totalExposure + size * price` exceeds `max_position_size` — the code
reuses the configured maximum position size as the exposure bound; the
configuration has no separate maximum-exposure parameter. -/
theorem checkOrderRisk_exposure_bound (cfg : TradingConfig) (metrics : RiskMetrics)
    (instrument : String) (size price : ℚ) (side : String)
    (hside : side = "buy" ∨ side = "sell")
    (h1 : checkPositionLimit cfg instrument size = true)
    (h2 : checkLossLimit cfg (size * price) = true)
    (h3 : checkDailyLossLimit cfg metrics (size * price) = true) :
    (checkOrderRisk cfg metrics instrument size price side =
        ⟨false, some (instrument, "Exposure limit exceeded")⟩ ↔
      metrics.total_exposure + size * price > cfg.max_position_size) := by
  have hpl : potentialLoss size price side = size * price := by
    rcases hside with h | h <;> simp [potentialLoss, h]
  constructor
  · intro hres
    by_contra hnot
    push_neg at hnot
    have c4 : checkExposureLimit cfg (metrics.total_exposure + size * price) = true := by
      simp [checkExposureLimit, hnot]
    rw [checkOrderRisk] at hres
    simp [h1, hpl, h2, h3, c4] at hres
  · intro hgt
    have c4 : checkExposureLimit cfg (metrics.total_exposure + size * price) = false := by
      simp [checkExposureLimit]
      exact hgt
    rw [checkOrderRisk]
    simp [h1, hpl, h2, h3, c4]

/-- Witness for C2 (amended): concrete order passing the first three
checks is rejected on the exposure check exactly when the new exposure
exceeds `max_position_size`. -/
theorem checkOrderRisk_exposure_bound_witness :
    checkOrderRisk cfgTightPos metricsFlat "BTC-PERPETUAL" 1 3 "buy" =
      ⟨false, some ("BTC-PERPETUAL", "Exposure limit exceeded")⟩ :=
  (checkOrderRisk_exposure_bound cfgTightPos metricsFlat "BTC-PERPETUAL" 1 3 "buy"
    (Or.inl rfl) (by decide)
    (by norm_num [checkLossLimit, cfgTightPos])
    (by norm_num [checkDailyLossLimit, cfgTightPos, metricsFlat])).mpr
    (by norm_num [metricsFlat, cfgTightPos])

/-- Counterexample for C2 as stated: the fourth check's bound is not a
configured maximum exposure. With `cfgTightPos` the new exposure `3` is
strictly below every configured limit except `max_position_size`, yet the
order is rejected with "Exposure limit exceeded": the bound in force is
the position-size cap, and `TradingConfig` has no maximum-exposure
field at all. -/
theorem checkOrderRisk_exposure_not_max_exposure :
    checkOrderRisk cfgTightPos metricsFlat "BTC-PERPETUAL" 1 3 "buy" =
      ⟨false, some ("BTC-PERPETUAL", "Exposure limit exceeded")⟩ ∧
    metricsFlat.total_exposure + 1 * 3 ≤ cfgTightPos.max_order_size ∧
    metricsFlat.total_exposure + 1 * 3 ≤ cfgTightPos.max_loss_per_trade ∧
    metricsFlat.total_exposure + 1 * 3 ≤ cfgTightPos.max_daily_loss ∧
    cfgTightPos.max_position_size < metricsFlat.total_exposure + 1 * 3 := by
  refine ⟨?_, by norm_num [metricsFlat, cfgTightPos], by norm_num [metricsFlat, cfgTightPos],
    by norm_num [metricsFlat, cfgTightPos], by norm_num [metricsFlat, cfgTightPos]⟩
  norm_num [checkOrderRisk, checkPositionLimit, checkLossLimit, checkDailyLossLimit,
    checkExposureLimit, potentialLoss, cfgTightPos, metricsFlat]

/-- C10 (amended): the decision of `checkOrderRisk` does not depend on
whether the side is "buy" or "sell"; for any other side string the
potential loss is `0`, so the per-trade loss check passes whenever
`max_loss_per_trade` is non-negative, and approval then reduces to the
position check together with the current-state conditions
`dailyPnl ≥ -maxDailyLoss` and `totalExposure ≤ max_position_size`. -/
theorem checkOrderRisk_side_insensitive (cfg : TradingConfig) (metrics : RiskMetrics)
    (instrument : String) (size price : ℚ) :
    (checkOrderRisk cfg metrics instrument size price "buy" =
      checkOrderRisk cfg metrics instrument size price "sell") ∧
    (∀ side : String, side ≠ "buy" → side ≠ "sell" →
      potentialLoss size price side = 0 ∧
      (0 ≤ cfg.max_loss_per_trade → checkLossLimit cfg (potentialLoss size price side) = true) ∧
      ((checkOrderRisk cfg metrics instrument size price side).approved = true ↔
        (checkPositionLimit cfg instrument size = true ∧
         0 ≤ cfg.max_loss_per_trade ∧
         metrics.daily_pnl ≥ -cfg.max_daily_loss ∧
         metrics.total_exposure ≤ cfg.max_position_size))) := by
  constructor
  · simp [checkOrderRisk, potentialLoss]
  · intro side hb hs
    have hpl : potentialLoss size price side = 0 := by
      simp [potentialLoss, hb, hs]
    refine ⟨hpl, fun hnn => by simp [checkLossLimit, hpl, hnn], ?_⟩
    rw [checkOrderRisk, hpl]
    cases h1 : checkPositionLimit cfg instrument size <;>
      cases h2 : checkLossLimit cfg 0 <;>
        cases h3 : checkDailyLossLimit cfg metrics 0 <;>
          cases h4 : checkExposureLimit cfg (metrics.total_exposure + 0) <;>
            simp_all [checkLossLimit, checkDailyLossLimit, checkExposureLimit]

/-- Witness for C10 (amended): with non-negative limits, a flat state and
side "hold", the order is approved, via the amended reduction. -/
theorem checkOrderRisk_side_insensitive_witness :
    (checkOrderRisk cfgOk metricsFlat "BTC-PERPETUAL" 1 2 "hold").approved = true :=
  ((checkOrderRisk_side_insensitive cfgOk metricsFlat "BTC-PERPETUAL" 1 2).2
    "hold" (by decide) (by decide)).2.2.mpr ⟨by decide, by decide, by decide, by decide⟩

/-- Counterexample for C10 as stated: with every configured limit
non-negative and a side string that is neither "buy" nor "sell", the
daily-loss check still fails when the current daily PnL is already past
`-max_daily_loss` — the checks after the size check do not trivially
pass. -/
theorem checkOrderRisk_other_side_not_trivial :
    (0:ℚ) ≤ cfgSmallDaily.max_loss_per_trade ∧
    (0:ℚ) ≤ cfgSmallDaily.max_daily_loss ∧
    (0:ℚ) ≤ cfgSmallDaily.max_position_size ∧
    (0:ℚ) ≤ cfgSmallDaily.max_order_size ∧
    checkOrderRisk cfgSmallDaily metricsDeepLoss "BTC-PERPETUAL" 1 1 "hold" =
      ⟨false, some ("BTC-PERPETUAL", "Daily loss limit exceeded")⟩ := by
  refine ⟨by decide, by decide, by decide, by decide, ?_⟩
  have hpl : potentialLoss 1 1 "hold" = 0 := by decide
  rw [checkOrderRisk]
  norm_num [checkPositionLimit, checkLossLimit, checkDailyLossLimit,
    checkExposureLimit, hpl, cfgSmallDaily, metricsDeepLoss]

/-! ### Market data manager -/

/-- `MarketDataManager::OrderBook::Level` (market_data_manager.h). -/
structure Level where
  price : ℚ
  size : ℚ
  timestamp : ℕ
deriving Repr, DecidableEq

/-- `MarketDataManager::OrderBook` (market_data_manager.h). -/
structure OrderBook where
  bids : List Level
  asks : List Level
  timestamp : ℕ
  instrument : String
deriving Repr, DecidableEq

/-- `MarketDataManager::Trade` (market_data_manager.h). -/
structure Trade where
  price : ℚ
  size : ℚ
  side : String
  instrument : String
  timestamp : ℕ
deriving Repr, DecidableEq

/-- `MarketDataManager::MarketData` (market_data_manager.h). -/
structure MarketData where
  orderbook : OrderBook
  trades : List Trade
  last_price : ℚ
  volume_24h : ℚ
  high_24h : ℚ
  low_24h : ℚ
  timestamp : ℕ
deriving Repr, DecidableEq

/-- A value-initialized `MarketData`, as default-constructed by
`market_data_[key]` for an absent key. -/
def MarketData.init : MarketData := ⟨⟨[], [], 0, ""⟩, [], 0, 0, 0, 0, 0⟩

/-- The `market_data_` map: per-instrument market data, absent keys `none`. -/
abbrev MarketStore := String → Option MarketData

/-- An update's result: the new store together with any data-quality
flags/log entries the update emitted. -/
structure UpdateOutcome where
  store : MarketStore
  flags : List String

/-- `MarketDataManager::updateOrderBook` (market_data_manager.cpp lines
32–40): wholesale-replaces the instrument's book and refreshes the
timestamp. The function body contains no crossed-book check, so no
data-quality flag or log entry is ever emitted. -/
def updateOrderBook (store : MarketStore) (ob : OrderBook) (now : ℕ) : UpdateOutcome :=
  let md := (store ob.instrument).getD MarketData.init
  let md' := { md with orderbook := ob, timestamp := now }
  ⟨fun i => if i = ob.instrument then some md' else store i, []⟩

/-- `max_trades` in `MarketDataManager::addTrade`. -/
def max_trades : ℕ := 1000

/-- The last `n` elements of a list, in order. -/
def lastN (n : ℕ) (l : List α) : List α := l.drop (l.length - n)

/-- `MarketDataManager::addTrade` (market_data_manager.cpp lines 42–57):
appends the trade to the instrument's trade vector, then erases from the
front down to `max_trades` entries when the bound is exceeded. -/
def addTrade (store : MarketStore) (t : Trade) (now : ℕ) : MarketStore :=
  let md := (store t.instrument).getD MarketData.init
  let trades := md.trades ++ [t]
  let trades :=
    if trades.length > max_trades then trades.drop (trades.length - max_trades)
    else trades
  fun i =>
    if i = t.instrument then some { md with trades := trades, timestamp := now }
    else store i

/-- `MarketDataManager::getMarketData`: throws when the instrument is
absent (modelled as `Except.error`). -/
def getMarketData (store : MarketStore) (instrument : String) : Except String MarketData :=
  match store instrument with
  | none => .error ("No market data available for instrument: " ++ instrument)
  | some md => .ok md

/-- `MarketDataManager::getRecentTrades` (market_data_manager.cpp lines
78–94): the whole stored vector when it holds at most `count` trades,
otherwise the last `count` of it. -/
def getRecentTrades (store : MarketStore) (instrument : String) (count : ℕ) :
    Except String (List Trade) :=
  match store instrument with
  | none => .error ("No market data available for instrument: " ++ instrument)
  | some md =>
    if md.trades.length ≤ count then .ok md.trades
    else .ok (md.trades.drop (md.trades.length - count))

/-- `MarketDataManager::getOrderBook`. -/
def getOrderBook (store : MarketStore) (instrument : String) : Except String OrderBook :=
  (getMarketData store instrument).map MarketData.orderbook

/-- `MarketDataManager::getBestBid`: front of the bids, an error when
the side is empty. -/
def getBestBid (store : MarketStore) (instrument : String) : Except String ℚ := do
  let ob ← getOrderBook store instrument
  match ob.bids with
  | [] => .error ("No bids available for instrument: " ++ instrument)
  | l :: _ => pure l.price

/-- `MarketDataManager::getBestAsk`: front of the asks. -/
def getBestAsk (store : MarketStore) (instrument : String) : Except String ℚ := do
  let ob ← getOrderBook store instrument
  match ob.asks with
  | [] => .error ("No asks available for instrument: " ++ instrument)
  | l :: _ => pure l.price

/-- `MarketDataManager::getMidPrice`: `(bestBid + bestAsk) / 2`. -/
def getMidPrice (store : MarketStore) (instrument : String) : Except String ℚ := do
  let b ← getBestBid store instrument
  let a ← getBestAsk store instrument
  pure ((b + a) / 2)

/-- `MarketDataManager::getSpread`: `bestAsk - bestBid`. -/
def getSpread (store : MarketStore) (instrument : String) : Except String ℚ := do
  let a ← getBestAsk store instrument
  let b ← getBestBid store instrument
  pure (a - b)

/-- A book is crossed when both sides are non-empty and the best bid is
at or above the best ask. -/
def isCrossed (ob : OrderBook) : Bool :=
  match ob.bids, ob.asks with
  | b :: _, a :: _ => a.price ≤ b.price
  | _, _ => false

/-- The empty `market_data_` map. -/
def emptyStore : MarketStore := fun _ => none

/-- The trade vector stored for an instrument (empty when absent). -/
def storedTrades (store : MarketStore) (i : String) : List Trade :=
  ((store i).map MarketData.trades).getD []

/-- Replaying a trade stream through `addTrade` from the empty store. -/
def addTradeFold (ts : List Trade) : MarketStore :=
  ts.foldl (fun s t => addTrade s t t.timestamp) emptyStore

theorem lastN_of_le {l : List α} {n : ℕ} (h : l.length ≤ n) : lastN n l = l := by
  simp [lastN, Nat.sub_eq_zero_of_le h]

theorem lastN_length_le (n : ℕ) (l : List α) : (lastN n l).length ≤ n := by
  simp [lastN]
  omega

theorem lastN_append_one {n : ℕ} (hn : 0 < n) (l : List α) (x : α) :
    lastN n (lastN n l ++ [x]) = lastN n (l ++ [x]) := by
  by_cases h : l.length ≤ n
  · rw [lastN_of_le h]
  · push_neg at h
    unfold lastN
    rw [List.length_append, List.length_drop, List.length_append]
    have hlen : l.length - (l.length - n) = n := by omega
    rw [hlen]
    have h1 : n + List.length [x] - n = 1 := by simp
    rw [h1]
    rw [List.drop_append_of_le_length (by rw [List.length_drop]; omega)]
    rw [List.drop_drop]
    rw [List.drop_append_of_le_length (by simp; omega)]
    congr 2
    simp
    omega

theorem trim_eq_lastN (l : List α) :
    (if l.length > max_trades then l.drop (l.length - max_trades) else l) =
      lastN max_trades l := by
  by_cases h : l.length > max_trades
  · rw [if_pos h]
    rfl
  · rw [if_neg h]
    push_neg at h
    rw [lastN_of_le h]

/-- One `addTrade` step keeps, per instrument, the last `max_trades`
of the arrival sequence. -/
theorem storedTrades_addTrade (store : MarketStore) (t : Trade) (now : ℕ) (i : String) :
    storedTrades (addTrade store t now) i =
      if i = t.instrument then lastN max_trades (storedTrades store i ++ [t])
      else storedTrades store i := by
  by_cases h : i = t.instrument
  · subst h
    rw [if_pos rfl]
    simp only [storedTrades, addTrade, if_pos rfl, trim_eq_lastN]
    cases store t.instrument <;> simp [MarketData.init]
  · rw [if_neg h]
    simp only [storedTrades, addTrade, if_neg h]

theorem addTradeFold_append (ts : List Trade) (t : Trade) :
    addTradeFold (ts ++ [t]) = addTrade (addTradeFold ts) t t.timestamp := by
  unfold addTradeFold
  rw [List.foldl_append]
  rfl

theorem filter_singleton_trade (t : Trade) (i : String) :
    List.filter (fun t => t.instrument == i) [t] =
      if t.instrument = i then [t] else [] := by
  by_cases h : t.instrument = i <;> simp [List.filter_singleton, h]

theorem addTradeFold_storedTrades (ts : List Trade) (i : String) :
    storedTrades (addTradeFold ts) i =
      lastN max_trades (ts.filter (fun t => t.instrument == i)) := by
  induction ts using List.reverseRecOn with
  | nil => simp [addTradeFold, storedTrades, emptyStore, lastN]
  | append_singleton ts t ih =>
    rw [addTradeFold_append, List.filter_append, filter_singleton_trade,
      storedTrades_addTrade, ih]
    by_cases h : i = t.instrument
    · rw [if_pos h, if_pos h.symm,
        lastN_append_one (by norm_num [max_trades])]
    · rw [if_neg h, if_neg (fun hc => h hc.symm), List.append_nil]

theorem addTradeFold_isSome (ts : List Trade) (i : String)
    (h : ts.filter (fun t => t.instrument == i) ≠ []) :
    ∃ md, addTradeFold ts i = some md := by
  induction ts using List.reverseRecOn with
  | nil => exact absurd rfl h
  | append_singleton ts t ih =>
    rw [addTradeFold_append]
    by_cases hi : i = t.instrument
    · subst hi
      simp only [addTrade, if_pos rfl]
      exact ⟨_, rfl⟩
    · simp only [addTrade, if_neg hi]
      apply ih
      rw [List.filter_append, filter_singleton_trade,
        if_neg (fun hc => hi hc.symm), List.append_nil] at h
      exact h

theorem getRecentTrades_eq (store : MarketStore) (i : String) (count : ℕ)
    (md : MarketData) (h : store i = some md) :
    getRecentTrades store i count = .ok (lastN count md.trades) := by
  simp only [getRecentTrades, h]
  by_cases hl : md.trades.length ≤ count
  · rw [if_pos hl, lastN_of_le hl]
  · rw [if_neg hl]
    rfl

/-- C3: replaying any trade stream, each instrument's stored sequence
never exceeds `max_trades = 1000` entries, equals the last 1000 of the
instrument's arrival sequence (FIFO eviction of the oldest), and
`getRecentTrades` returns the last `count` of that stored sequence in
arrival order. -/
theorem addTrade_ring_buffer (ts : List Trade) (i : String) (count : ℕ) :
    (storedTrades (addTradeFold ts) i).length ≤ max_trades ∧
    storedTrades (addTradeFold ts) i =
      lastN max_trades (ts.filter (fun t => t.instrument == i)) ∧
    (ts.filter (fun t => t.instrument == i) ≠ [] →
      getRecentTrades (addTradeFold ts) i count =
        .ok (lastN count (lastN max_trades (ts.filter (fun t => t.instrument == i))))) := by
  refine ⟨?_, addTradeFold_storedTrades ts i, fun hne => ?_⟩
  · rw [addTradeFold_storedTrades]
    exact lastN_length_le _ _
  · obtain ⟨md, hmd⟩ := addTradeFold_isSome ts i hne
    rw [getRecentTrades_eq _ _ _ _ hmd]
    have : md.trades = storedTrades (addTradeFold ts) i := by
      unfold storedTrades
      rw [hmd]
      rfl
    rw [this, addTradeFold_storedTrades]

/-- A sample trade. -/
def trEx : Trade := ⟨100, 1, "buy", "BTC-PERPETUAL", 0⟩

/-- Witness for C3: after one trade, `getRecentTrades` returns it. -/
theorem addTrade_ring_buffer_witness :
    getRecentTrades (addTradeFold [trEx]) "BTC-PERPETUAL" 5 = .ok [trEx] := by
  have h := (addTrade_ring_buffer [trEx] "BTC-PERPETUAL" 5).2.2 (by decide)
  rw [h]
  rfl

/-! ### Positions and exposure aggregation -/

/-- The `positions_` map (`std::map<std::string, Position>`), as an
association list with one entry per instrument key. -/
def setPosition (ps : List (String × Position)) (p : Position) :
    List (String × Position) :=
  if ps.any (fun q => q.1 == p.instrument) then
    ps.map (fun q => if q.1 == p.instrument then (p.instrument, p) else q)
  else ps ++ [(p.instrument, p)]

/-- Lookup in the `positions_` map. -/
def lookupPosition (ps : List (String × Position)) (i : String) : Option Position :=
  (ps.find? (fun q => q.1 == i)).map Prod.snd

/-- The exposure recomputation loop of `RiskManager::updatePosition`:
`Σ |size_i * avg_price_i|` over all stored positions. -/
def totalExposureOf (ps : List (String × Position)) : ℚ :=
  (ps.map (fun q => |q.2.size * q.2.avg_price|)).sum

/-- The mutable state of the risk manager relevant to positions. -/
structure RiskState where
  positions : List (String × Position)
  metrics : RiskMetrics

/-- `RiskManager::updatePosition` (src/unnamed/part_007 lines 81–96):
stores the position wholesale under its instrument key, then recomputes
`risk_metrics_.total_exposure` from the whole map. -/
def updatePosition (st : RiskState) (p : Position) : RiskState :=
  let ps := setPosition st.positions p
  { positions := ps
    metrics := { st.metrics with total_exposure := totalExposureOf ps } }

/-- `RiskManager::getTotalExposure`. -/
def getTotalExposure (st : RiskState) : ℚ := st.metrics.total_exposure

theorem find?_setPosition_self (ps : List (String × Position)) (p : Position) :
    (setPosition ps p).find? (fun q => q.1 == p.instrument) =
      some (p.instrument, p) := by
  unfold setPosition
  by_cases h : ps.any (fun q => q.1 == p.instrument)
  · rw [if_pos h]
    induction ps with
    | nil => simp at h
    | cons hd tl ih =>
      simp only [List.map_cons]
      by_cases hh : (hd.1 == p.instrument) = true
      · rw [if_pos hh]
        simp only [List.find?, beq_self_eq_true]
      · rw [if_neg hh]
        have hf : (hd.1 == p.instrument) = false := by simpa using hh
        simp only [List.find?, hf]
        apply ih
        simp only [List.any_cons, Bool.or_eq_true] at h
        rcases h with h | h
        · exact absurd h hh
        · exact h
  · rw [if_neg h]
    rw [List.find?_append]
    have hnone : ps.find? (fun q => q.1 == p.instrument) = none := by
      rw [List.find?_eq_none]
      intro q hq hpq
      exact h (List.any_eq_true.mpr ⟨q, hq, hpq⟩)
    rw [hnone]
    simp [List.find?, beq_self_eq_true]

theorem find?_setPosition_other (ps : List (String × Position)) (p : Position)
    (j : String) (hj : j ≠ p.instrument) :
    (setPosition ps p).find? (fun q => q.1 == j) =
      ps.find? (fun q => q.1 == j) := by
  have hpj : (p.instrument == j) = false :=
    beq_eq_false_iff_ne.mpr (fun hc => hj hc.symm)
  unfold setPosition
  by_cases h : ps.any (fun q => q.1 == p.instrument)
  · rw [if_pos h]
    clear h
    induction ps with
    | nil => rfl
    | cons hd tl ih =>
      simp only [List.map_cons]
      by_cases hh : (hd.1 == p.instrument) = true
      · rw [if_pos hh]
        have hd1 : hd.1 = p.instrument := by simpa using hh
        have hdj : (hd.1 == j) = false := by
          rw [hd1]
          exact beq_eq_false_iff_ne.mpr (fun hc => hj hc.symm)
        simp only [List.find?, hpj, hdj]
        exact ih
      · rw [if_neg hh]
        by_cases hdj : (hd.1 == j) = true
        · simp only [List.find?, hdj]
        · have hf : (hd.1 == j) = false := by simpa using hdj
          simp only [List.find?, hf]
          exact ih
  · rw [if_neg h]
    rw [List.find?_append]
    cases hfind : ps.find? (fun q => q.1 == j) with
    | some q => rfl
    | none => simp [List.find?, hpj]

/-- C4: `updatePosition` replaces the stored position for the instrument
wholesale, leaves every other instrument's entry unchanged, and leaves
`getTotalExposure` equal to `Σ |size * avg_price|` over the whole stored
position map. -/
theorem updatePosition_wholesale_exposure (st : RiskState) (p : Position) :
    lookupPosition (updatePosition st p).positions p.instrument = some p ∧
    (∀ j, j ≠ p.instrument →
      lookupPosition (updatePosition st p).positions j =
        lookupPosition st.positions j) ∧
    getTotalExposure (updatePosition st p) =
      (((updatePosition st p).positions).map
        (fun q => |q.2.size * q.2.avg_price|)).sum := by
  refine ⟨?_, fun j hj => ?_, rfl⟩
  · unfold lookupPosition updatePosition
    simp [find?_setPosition_self]
  · unfold lookupPosition updatePosition
    simp [find?_setPosition_other st.positions p j hj]

/-- A stored position for `BTC-PERPETUAL`, about to be replaced. -/
def posOld : Position := ⟨"BTC-PERPETUAL", 2, 50, 0, 0, 0⟩

/-- A stored position for `ETH-PERPETUAL`, untouched by the update. -/
def posEth : Position := ⟨"ETH-PERPETUAL", 1, 20, 0, 0, 0⟩

/-- The replacement position: every field differs from `posOld`. -/
def posNew : Position := ⟨"BTC-PERPETUAL", 3, 60, 7, 8, 9⟩

/-- A concrete risk state holding `posOld` and `posEth`. -/
def stTwo : RiskState :=
  ⟨[("BTC-PERPETUAL", posOld), ("ETH-PERPETUAL", posEth)], metricsFlat⟩

/-- Witness for C4: replacing `posOld` with `posNew` stores `posNew`
wholesale and leaves the `ETH-PERPETUAL` entry unchanged. -/
theorem updatePosition_wholesale_exposure_witness :
    lookupPosition (updatePosition stTwo posNew).positions "BTC-PERPETUAL" =
      some posNew ∧
    lookupPosition (updatePosition stTwo posNew).positions "ETH-PERPETUAL" =
      lookupPosition stTwo.positions "ETH-PERPETUAL" :=
  ⟨(updatePosition_wholesale_exposure stTwo posNew).1,
   (updatePosition_wholesale_exposure stTwo posNew).2.1 "ETH-PERPETUAL" (by decide)⟩

/-! ### Crossed books and derived quote queries -/

/-- C6 (amended): `updateOrderBook` stores every book wholesale and
emits no data-quality flag or log entry — crossed books are silently
accepted, exactly like non-crossed books. -/
theorem updateOrderBook_silent (store : MarketStore) (ob : OrderBook) (now : ℕ) :
    (updateOrderBook store ob now).flags = [] ∧
    ((updateOrderBook store ob now).store ob.instrument).map MarketData.orderbook
      = some ob ∧
    (∀ j, j ≠ ob.instrument → (updateOrderBook store ob now).store j = store j) := by
  refine ⟨rfl, ?_, fun j hj => ?_⟩
  · simp [updateOrderBook]
  · simp [updateOrderBook, hj]

/-- A crossed order book: best bid 101 at or above best ask 100. -/
def crossedBookEx : OrderBook := ⟨[⟨101, 1, 0⟩], [⟨100, 1, 0⟩], 0, "BTC-PERPETUAL"⟩

/-- Witness for C6 (amended): the concrete crossed book is also stored
without a flag, and other instruments are untouched. -/
theorem updateOrderBook_silent_witness :
    (updateOrderBook emptyStore crossedBookEx 0).flags = [] ∧
    (updateOrderBook emptyStore crossedBookEx 0).store "ETH-PERPETUAL" =
      emptyStore "ETH-PERPETUAL" :=
  ⟨(updateOrderBook_silent emptyStore crossedBookEx 0).1,
   (updateOrderBook_silent emptyStore crossedBookEx 0).2.2 "ETH-PERPETUAL" (by decide)⟩

/-- Counterexample for C6 as stated: a crossed book (best bid 101 ≥ best
ask 100, both sides non-empty) is accepted and stored wholesale with no
data-quality flag or log entry — `updateOrderBook` contains no crossed-book
check at all, so the crossed book is not flagged. -/
theorem updateOrderBook_crossed_not_flagged :
    isCrossed crossedBookEx = true ∧
    (updateOrderBook emptyStore crossedBookEx 0).flags = [] ∧
    ((updateOrderBook emptyStore crossedBookEx 0).store "BTC-PERPETUAL").map
      MarketData.orderbook = some crossedBookEx := by
  refine ⟨by decide, rfl, ?_⟩
  simp [updateOrderBook, crossedBookEx, emptyStore]

/-- C7: each derived quote query succeeds exactly when the instrument has
stored market data and the relevant book side(s) are non-empty; with data
and both sides non-empty, all four return values. -/
theorem quote_queries_fail_iff (store : MarketStore) (i : String) :
    ((∃ v, getBestBid store i = .ok v) ↔
      (∃ md, store i = some md ∧ md.orderbook.bids ≠ [])) ∧
    ((∃ v, getBestAsk store i = .ok v) ↔
      (∃ md, store i = some md ∧ md.orderbook.asks ≠ [])) ∧
    ((∃ v, getMidPrice store i = .ok v) ↔
      (∃ md, store i = some md ∧ md.orderbook.bids ≠ [] ∧
        md.orderbook.asks ≠ [])) ∧
    ((∃ v, getSpread store i = .ok v) ↔
      (∃ md, store i = some md ∧ md.orderbook.bids ≠ [] ∧
        md.orderbook.asks ≠ [])) := by
  cases hst : store i with
  | none =>
    simp [getBestBid, getBestAsk, getMidPrice, getSpread, getOrderBook,
      getMarketData, hst, Except.map, bind, Except.bind]
  | some md =>
    cases hb : md.orderbook.bids <;> cases ha : md.orderbook.asks <;>
      simp [getBestBid, getBestAsk, getMidPrice, getSpread, getOrderBook,
        getMarketData, hst, hb, ha, Except.map, bind, Except.bind, pure, Except.pure]

/-! ### Latency module -/

/-- `LatencyModule::max_history_size_` default value (latency_module.h). -/
def max_history_size : ℕ := 1000

/-- `LatencyModule::LatencyStats` (latency_module.h); durations as
microsecond counts. -/
structure LatencyStats where
  min : ℤ
  max : ℤ
  avg : ℤ
  p50 : ℤ
  p90 : ℤ
  p99 : ℤ
  count : ℕ
deriving Repr, DecidableEq

/-- The zero-initialized `LatencyStats` left untouched for empty data. -/
def LatencyStats.zero : LatencyStats := ⟨0, 0, 0, 0, 0, 0, 0⟩

/-- `LatencyModule::calculateStats` (latency_module.cpp lines 117–146):
min/max over the data, average as integer division of the total, and
percentiles read from the sorted copy at indices `(n-1)*k/100`. -/
def calculateStats (latencies : List ℤ) : LatencyStats :=
  if latencies = [] then LatencyStats.zero
  else
    let sorted_latencies := List.insertionSort (· ≤ ·) latencies
    let n := sorted_latencies.length
    { min := (latencies.min?).getD 0
      max := (latencies.max?).getD 0
      avg := (latencies.foldl (· + ·) 0) / (latencies.length : ℤ)
      p50 := sorted_latencies.getD ((n - 1) * 50 / 100) 0
      p90 := sorted_latencies.getD ((n - 1) * 90 / 100) 0
      p99 := sorted_latencies.getD ((n - 1) * 99 / 100) 0
      count := latencies.length }

/-- The `latency_data_` map: per operation-id sample vectors. -/
abbrev LatencyData := String → List ℤ

/-- `LatencyModule::end` (latency_module.cpp lines 25–36): push the
sample, then erase the front element when the window exceeds
`max_history_size_`. -/
def endOperation (data : LatencyData) (operation_id : String) (latency : ℤ) :
    LatencyData :=
  fun i =>
    if i = operation_id then
      let latencies := data operation_id ++ [latency]
      if latencies.length > max_history_size then latencies.drop 1 else latencies
    else data i

/-- Replaying a stream of (operation, latency) samples through
`LatencyModule::end` from an empty recorder. -/
def endFold (samples : List (String × ℤ)) : LatencyData :=
  samples.foldl (fun d s => endOperation d s.1 s.2) (fun _ => [])

theorem min?_le_of_mem_int {l : List ℤ} {a b : ℤ} (h : l.min? = some a)
    (hb : b ∈ l) : a ≤ b :=
  (List.le_min?_iff (fun _ _ _ => le_min_iff) h).1 (le_refl a) b hb

theorem le_max?_of_mem_int {l : List ℤ} {a b : ℤ} (h : l.max? = some a)
    (hb : b ∈ l) : b ≤ a :=
  (List.max?_le_iff (fun _ _ _ => max_le_iff) h).1 (le_refl a) b hb

/-- C8: for non-empty data the computed statistics satisfy
`min ≤ p50 ≤ p90 ≤ p99 ≤ max`: the percentile indices `(n-1)*k/100` are
monotone in `k` and at most `n-1`, the sorted copy is monotone, and
min/max bound every element. -/
theorem calculateStats_ordered (data : List ℤ) (h : data ≠ []) :
    (calculateStats data).min ≤ (calculateStats data).p50 ∧
    (calculateStats data).p50 ≤ (calculateStats data).p90 ∧
    (calculateStats data).p90 ≤ (calculateStats data).p99 ∧
    (calculateStats data).p99 ≤ (calculateStats data).max := by
  obtain ⟨x, hx⟩ := List.exists_mem_of_ne_nil data h
  obtain ⟨m, hm⟩ := Option.isSome_iff_exists.mp (List.isSome_min?_of_mem hx)
  obtain ⟨M, hM⟩ := Option.isSome_iff_exists.mp (List.isSome_max?_of_mem hx)
  have hsorted : List.Sorted (· ≤ ·) (List.insertionSort (· ≤ ·) data) :=
    List.sorted_insertionSort _ data
  have hperm : List.Perm (List.insertionSort (· ≤ ·) data) data :=
    List.perm_insertionSort _ data
  simp only [calculateStats, if_neg h]
  set s := List.insertionSort (· ≤ ·) data with hs
  have hlen : s.length = data.length := hperm.length_eq
  have hpos : 0 < s.length := by
    rw [hlen]
    exact List.length_pos.mpr h
  have hb : ∀ k, k ≤ 100 → (s.length - 1) * k / 100 < s.length := by
    intro k hk
    have h1 : (s.length - 1) * k ≤ (s.length - 1) * 100 :=
      Nat.mul_le_mul_left _ hk
    have h2 : (s.length - 1) * k / 100 ≤ (s.length - 1) * 100 / 100 :=
      Nat.div_le_div_right h1
    rw [Nat.mul_div_cancel _ (by norm_num)] at h2
    omega
  have hmono : ∀ k₁ k₂ : ℕ, k₁ ≤ k₂ →
      (s.length - 1) * k₁ / 100 ≤ (s.length - 1) * k₂ / 100 := fun k₁ k₂ hk =>
    Nat.div_le_div_right (Nat.mul_le_mul_left _ hk)
  have hgetD : ∀ (i : ℕ) (hi : i < s.length), s.getD i 0 = s.get ⟨i, hi⟩ := by
    intro i hi
    simp [List.getD_eq_getElem?_getD, List.getElem?_eq_getElem hi]
  have hmem : ∀ (i : ℕ) (hi : i < s.length), s.get ⟨i, hi⟩ ∈ data := fun i hi =>
    hperm.mem_iff.mp (s.get_mem _ _)
  have h50 := hb 50 (by norm_num)
  have h90 := hb 90 (by norm_num)
  have h99 := hb 99 (by norm_num)
  refine ⟨?_, ?_, ?_, ?_⟩
  · rw [hm, Option.getD_some, hgetD _ h50]
    exact min?_le_of_mem_int hm (hmem _ h50)
  · rw [hgetD _ h50, hgetD _ h90]
    exact hsorted.rel_get_of_le (Fin.mk_le_mk.mpr (hmono 50 90 (by norm_num)))
  · rw [hgetD _ h90, hgetD _ h99]
    exact hsorted.rel_get_of_le (Fin.mk_le_mk.mpr (hmono 90 99 (by norm_num)))
  · rw [hM, Option.getD_some, hgetD _ h99]
    exact le_max?_of_mem_int hM (hmem _ h99)

/-- The spec's example sample list `[10, 20, ..., 1000]`. -/
def sampleRamp : List ℤ := (List.range 100).map (fun i => 10 * ((i : ℤ) + 1))

/-- Witness for C8: the chain holds on the spec's sample list. -/
theorem calculateStats_ordered_witness :
    (calculateStats sampleRamp).min ≤ (calculateStats sampleRamp).p50 ∧
    (calculateStats sampleRamp).p50 ≤ (calculateStats sampleRamp).p90 ∧
    (calculateStats sampleRamp).p90 ≤ (calculateStats sampleRamp).p99 ∧
    (calculateStats sampleRamp).p99 ≤ (calculateStats sampleRamp).max :=
  calculateStats_ordered sampleRamp (by decide)

theorem endOp_trim_eq_lastN (l : List ℤ) (x : ℤ) (hl : l.length ≤ max_history_size) :
    (if (l ++ [x]).length > max_history_size then (l ++ [x]).drop 1 else l ++ [x]) =
      lastN max_history_size (l ++ [x]) := by
  by_cases hc : (l ++ [x]).length > max_history_size
  · rw [if_pos hc]
    have hsub : (l ++ [x]).length - max_history_size = 1 := by
      simp only [List.length_append, List.length_cons, List.length_nil,
        max_history_size] at hc hl ⊢
      omega
    unfold lastN
    rw [hsub]
  · rw [if_neg hc]
    push_neg at hc
    rw [lastN_of_le hc]

theorem endFold_append (samples : List (String × ℤ)) (s : String × ℤ) :
    endFold (samples ++ [s]) = endOperation (endFold samples) s.1 s.2 := by
  unfold endFold
  rw [List.foldl_append]
  rfl

/-- C9: replaying any sample stream through `LatencyModule::end`, each
operation class's window holds at most `max_history_size = 1000` samples
and always equals the most recent at-most-1000 samples of that class in
arrival order (the oldest evicted first). -/
theorem latency_window_bounded (samples : List (String × ℤ)) (op : String) :
    (endFold samples op).length ≤ max_history_size ∧
    endFold samples op =
      lastN max_history_size ((samples.filter (fun s => s.1 == op)).map Prod.snd) := by
  have main : endFold samples op =
      lastN max_history_size ((samples.filter (fun s => s.1 == op)).map Prod.snd) := by
    induction samples using List.reverseRecOn with
    | nil => simp [endFold, lastN]
    | append_singleton ts t ih =>
      rw [endFold_append, List.filter_append, List.map_append]
      by_cases hop : op = t.1
      · have hf : List.filter (fun s => s.1 == op) [t] = [t] := by
          simp [List.filter_singleton, hop]
        rw [hf]
        have hbound : (endFold ts op).length ≤ max_history_size := by
          rw [ih]
          exact lastN_length_le _ _
        show (if op = t.1 then _ else endFold ts op) = _
        rw [if_pos hop]
        rw [← hop]
        rw [endOp_trim_eq_lastN _ _ hbound, ih,
          lastN_append_one (by norm_num [max_history_size])]
        rfl
      · have hne : (t.1 == op) = false :=
          beq_eq_false_iff_ne.mpr (fun hc => hop hc.symm)
        have hf : List.filter (fun s => s.1 == op) [t] = [] := by
          simp [List.filter_singleton, hne]
        rw [hf]
        show (if op = t.1 then _ else endFold ts op) = _
        rw [if_neg hop, List.map_nil, List.append_nil]
        exact ih
  exact ⟨by rw [main]; exact lastN_length_le _ _, main⟩

/-! ### Deribit client order actions -/

/-- `DeribitClient::OrderRequest` (deribit_client.h). -/
structure OrderRequest where
  instrument : String
  side : String
  size : ℚ
  price : ℚ
  type : String
  post_only : Bool
  reduce_only : Bool
  time_in_force : String
deriving Repr, DecidableEq

/-- The id and method of an outbound JSON-RPC frame. -/
structure RpcFrame where
  id : ℕ
  method : String
deriving Repr, DecidableEq

/-- The frame built by `DeribitClient::placeOrder` (deribit_client.cpp
lines 98–116): the correlation id is the literal constant `9931` and the
method string is the concatenation the code computes. -/
def placeOrderFrame (request : OrderRequest) : RpcFrame :=
  { id := 9931
    method := "private/buy" ++ (if request.side = "sell" then "private/sell" else "") }

/-- The frame built by `DeribitClient::cancelOrder` (deribit_client.cpp
lines 118–130): the correlation id is the literal constant `9932`. -/
def cancelOrderFrame (order_id : String) : RpcFrame :=
  { id := 9932, method := "private/cancel" }

/-- The frame built by `DeribitClient::modifyOrder` (deribit_client.cpp
lines 132–146): the correlation id is the literal constant `9933`. -/
def modifyOrderFrame (order_id : String) (new_size new_price : ℚ) : RpcFrame :=
  { id := 9933, method := "private/edit" }

/-- C5 (amended): the order actions carry hardcoded correlation ids —
every `placeOrder` frame has id 9931 regardless of the request, every
`cancelOrder` frame 9932 and every `modifyOrder` frame 9933; the ids are
distinct across the three action kinds but shared by all calls of the
same action, and no monotonic counter exists. -/
theorem order_action_ids_constant (r₁ r₂ : OrderRequest) (oid : String)
    (new_size new_price : ℚ) :
    (placeOrderFrame r₁).id = 9931 ∧
    (placeOrderFrame r₂).id = (placeOrderFrame r₁).id ∧
    (cancelOrderFrame oid).id = 9932 ∧
    (modifyOrderFrame oid new_size new_price).id = 9933 :=
  ⟨rfl, rfl, rfl, rfl⟩

/-- A concrete order request. -/
def reqA : OrderRequest :=
  ⟨"BTC-PERPETUAL", "buy", 1, 100, "limit", true, false, "good_til_cancelled"⟩

/-- A second, entirely different order request. -/
def reqB : OrderRequest :=
  ⟨"ETH-PERPETUAL", "sell", 2, 200, "market", false, true, "fill_or_kill"⟩

/-- Counterexample for C5 as stated: two consecutive `placeOrder` calls
with different requests produce frames with the same correlation id
(both 9931) — the id space is not collision-free and no monotonic
counter is involved. -/
theorem placeOrder_ids_collide :
    reqA ≠ reqB ∧ (placeOrderFrame reqA).id = (placeOrderFrame reqB).id :=
  ⟨by decide, rfl⟩

end HFT
